import Mathlib

/-!
# Verified model of the per-key rate-limiting library

Shallow embedding of the two limiters of this repository:

* `SlidingWindowRateLimiter` (src/task_01.py): per key, a deque of accepted
  timestamps inside a trailing window; admission iff fewer than
  `max_requests` non-expired timestamps remain.
* `ThrottlingRateLimiter` (src/Task_02.py): per key, the timestamp of the
  last accepted action; admission iff at least `min_interval` elapsed.

Python's `time.time()` reads are modelled by an explicit `current_time : ℚ`
argument; Python floats become rationals, Python ints become `ℤ`/`ℕ`, the
`Dict[str, ...]` maps become association lists over `String`, and the
mutation of `self` becomes explicit state passing (each method that mutates
returns the result value together with the new state).
-/

/-! ## Association-list model of Python dicts -/

/-- `d.get(k)` / `k in d` on a `Dict[str, α]`, as lookup in an association
list (first match wins; states reachable from a fresh limiter have unique
keys). -/
def alLookup {α : Type} : List (String × α) → String → Option α
  | [], _ => none
  | (k', v) :: rest, k => if k' = k then some v else alLookup rest k

/-- `d[k] = v`: overwrite the entry for `k`, or append it when absent. -/
def alSet {α : Type} : List (String × α) → String → α → List (String × α)
  | [], k, v => [(k, v)]
  | (k', v') :: rest, k, v =>
    if k' = k then (k, v) :: rest else (k', v') :: alSet rest k v

/-- `del d[k]`: remove the entry (entries) for `k`. -/
def alErase {α : Type} : List (String × α) → String → List (String × α)
  | [], _ => []
  | (k', v') :: rest, k =>
    if k' = k then alErase rest k else (k', v') :: alErase rest k

/-! ## SlidingWindowRateLimiter (src/task_01.py) -/

/-- State of `SlidingWindowRateLimiter`: configuration plus the per-user
deques of accepted timestamps and the blocked-request counter. -/
structure SlidingWindowRateLimiter where
  window_size : ℚ
  max_requests : ℤ
  user_requests : List (String × List ℚ)
  blocked_requests : ℕ
deriving DecidableEq

namespace SlidingWindowRateLimiter

/-- `__init__(window_size, max_requests)`: stores the configuration and
starts with an empty map and a zero blocked counter (no range validation is
performed by the source). -/
def init (window_size : ℚ) (max_requests : ℤ) : SlidingWindowRateLimiter :=
  ⟨window_size, max_requests, [], 0⟩

/-- The deque recorded for `user_id` (`[]` when the key is absent). -/
def dequeOf (s : SlidingWindowRateLimiter) (user_id : String) : List ℚ :=
  (alLookup s.user_requests user_id).getD []

/-- `_cleanup_window(user_id, current_time)`: pop expired timestamps
(`ts <= current_time - window_size`) from the front of the user's deque and
delete the user when the deque becomes empty. -/
def cleanup_window (s : SlidingWindowRateLimiter) (user_id : String)
    (current_time : ℚ) : SlidingWindowRateLimiter :=
  match alLookup s.user_requests user_id with
  | none => s
  | some dq =>
    let dq' := dq.dropWhile (fun ts => decide (ts ≤ current_time - s.window_size))
    if dq' = [] then
      { s with user_requests := alErase s.user_requests user_id }
    else
      { s with user_requests := alSet s.user_requests user_id dq' }

/-- `can_send_message(user_id, current_time)`: cleanup, then admit iff the
user is absent or holds fewer than `max_requests` timestamps. Returns the
decision together with the (cleaned-up) state. -/
def can_send_message (s : SlidingWindowRateLimiter) (user_id : String)
    (current_time : ℚ) : Bool × SlidingWindowRateLimiter :=
  let s' := s.cleanup_window user_id current_time
  (match alLookup s'.user_requests user_id with
   | none => true
   | some dq => decide ((dq.length : ℤ) < s'.max_requests), s')

/-- `record_message(user_id)` at clock reading `current_time`: run
`can_send_message`; on admission append `current_time` to the user's deque
(creating it when absent) and return `true`; otherwise bump the
blocked-request counter and return `false`. -/
def record_message (s : SlidingWindowRateLimiter) (user_id : String)
    (current_time : ℚ) : Bool × SlidingWindowRateLimiter :=
  let r := s.can_send_message user_id current_time
  if r.1 then
    let dq := (alLookup r.2.user_requests user_id).getD []
    (true, { r.2 with
              user_requests := alSet r.2.user_requests user_id (dq ++ [current_time]) })
  else
    (false, { r.2 with blocked_requests := r.2.blocked_requests + 1 })

/-- `time_until_next_allowed(user_id)` at clock reading `current_time`:
cleanup, then `0` when admission would succeed, otherwise
`max 0 (oldest + window_size - current_time)`. Returns the wait together
with the (cleaned-up) state. -/
def time_until_next_allowed (s : SlidingWindowRateLimiter) (user_id : String)
    (current_time : ℚ) : ℚ × SlidingWindowRateLimiter :=
  let s' := s.cleanup_window user_id current_time
  match alLookup s'.user_requests user_id with
  | none => (0, s')
  | some dq =>
    if (dq.length : ℤ) < s'.max_requests then (0, s')
    else (max 0 (dq.headD 0 + s'.window_size - current_time), s')

end SlidingWindowRateLimiter

/-! ## ThrottlingRateLimiter (src/Task_02.py) -/

/-- State of `ThrottlingRateLimiter`: the minimum interval and the per-user
last-accepted-message times. -/
structure ThrottlingRateLimiter where
  min_interval : ℚ
  user_last_message_time : List (String × ℚ)
deriving DecidableEq

namespace ThrottlingRateLimiter

/-- `__init__(min_interval)`: stores the interval and starts with an empty
map (no range validation is performed by the source). -/
def init (min_interval : ℚ) : ThrottlingRateLimiter :=
  ⟨min_interval, []⟩

/-- `self.user_last_message_time.get(user_id, 0)`. -/
def lastTime (s : ThrottlingRateLimiter) (user_id : String) : ℚ :=
  (alLookup s.user_last_message_time user_id).getD 0

/-- `can_send_message(user_id)` at clock reading `current_time`: admit iff
`current_time - last_message_time >= min_interval`. Reads the state without
mutating it (a pure function of the state). -/
def can_send_message (s : ThrottlingRateLimiter) (user_id : String)
    (current_time : ℚ) : Bool :=
  decide (current_time - s.lastTime user_id ≥ s.min_interval)

/-- `record_message(user_id)` at clock reading `current_time`: re-check the
interval condition; on admission store `current_time` for the user and
return `true`, otherwise return `false` without mutation. -/
def record_message (s : ThrottlingRateLimiter) (user_id : String)
    (current_time : ℚ) : Bool × ThrottlingRateLimiter :=
  if current_time - s.lastTime user_id ≥ s.min_interval then
    (true, { s with
              user_last_message_time :=
                alSet s.user_last_message_time user_id current_time })
  else
    (false, s)

/-- `time_until_next_allowed(user_id)` at clock reading `current_time`:
`max 0 (min_interval - (current_time - last_message_time))`. Reads the
state without mutating it. -/
def time_until_next_allowed (s : ThrottlingRateLimiter) (user_id : String)
    (current_time : ℚ) : ℚ :=
  max 0 (s.min_interval - (current_time - s.lastTime user_id))

end ThrottlingRateLimiter

/-! ## Traces of operations -/

/-- A record-only trace: the `(user_id, clock reading)` of each
`record_message` call, in call order. -/
def swRunRecords (s : SlidingWindowRateLimiter) :
    List (String × ℚ) → SlidingWindowRateLimiter
  | [] => s
  | (uid, t) :: rest => swRunRecords (s.record_message uid t).2 rest

/-- The clock readings of the calls in a record-only trace that succeed
(return `true`) for key `k`, in call order. -/
def swSuccesses (s : SlidingWindowRateLimiter) (k : String) :
    List (String × ℚ) → List ℚ
  | [] => []
  | (uid, t) :: rest =>
    if uid = k ∧ (s.record_message uid t).1 = true then
      t :: swSuccesses (s.record_message uid t).2 k rest
    else
      swSuccesses (s.record_message uid t).2 k rest

/-- One call to any of the three public sliding-window operations, with its
clock reading. -/
inductive SWOp where
  | record (user_id : String) (t : ℚ)
  | canSend (user_id : String) (t : ℚ)
  | timeUntil (user_id : String) (t : ℚ)
deriving DecidableEq

/-- The state after one operation. -/
def swStep (s : SlidingWindowRateLimiter) : SWOp → SlidingWindowRateLimiter
  | .record uid t => (s.record_message uid t).2
  | .canSend uid t => (s.can_send_message uid t).2
  | .timeUntil uid t => (s.time_until_next_allowed uid t).2

/-- The state after a scripted sequence of operations. -/
def swRunOps (s : SlidingWindowRateLimiter) : List SWOp → SlidingWindowRateLimiter
  | [] => s
  | op :: rest => swRunOps (swStep s op) rest

/-- How many `record_message` calls of a scripted sequence are rejected
(return `false`). -/
def swRejectedCount (s : SlidingWindowRateLimiter) : List SWOp → ℕ
  | [] => 0
  | op :: rest =>
    (match op with
     | .record uid t => if (s.record_message uid t).1 = true then 0 else 1
     | _ => 0) + swRejectedCount (swStep s op) rest

/-- How many elements of `l` lie in the trailing half-open window `(T - w, T]`. -/
def countWindow (w T : ℚ) (l : List ℚ) : ℕ :=
  l.countP (fun x => decide (T - w < x ∧ x ≤ T))

/-! ## Helper lemmas: association lists -/

theorem alLookup_alSet_self {α : Type} (l : List (String × α)) (k : String) (v : α) :
    alLookup (alSet l k v) k = some v := by
  induction l with
  | nil => simp [alSet, alLookup]
  | cons p rest ih =>
    obtain ⟨k', v'⟩ := p
    by_cases h : k' = k
    · simp [alSet, alLookup, h]
    · simp [alSet, alLookup, h, ih]

theorem alLookup_alSet_ne {α : Type} (l : List (String × α)) (k k' : String) (v : α)
    (h : k' ≠ k) : alLookup (alSet l k v) k' = alLookup l k' := by
  have h' : k ≠ k' := Ne.symm h
  induction l with
  | nil => simp [alSet, alLookup, h']
  | cons p rest ih =>
    obtain ⟨a, b⟩ := p
    by_cases ha : a = k
    · subst ha
      simp [alSet, alLookup, h']
    · by_cases ha' : a = k'
      · simp [alSet, alLookup, ha, ha', h]
      · simp [alSet, alLookup, ha, ha', ih]

theorem alLookup_alErase_self {α : Type} (l : List (String × α)) (k : String) :
    alLookup (alErase l k) k = none := by
  induction l with
  | nil => simp [alErase, alLookup]
  | cons p rest ih =>
    obtain ⟨a, b⟩ := p
    by_cases ha : a = k
    · simp [alErase, alLookup, ha, ih]
    · simp [alErase, alLookup, ha, ih]

theorem alLookup_alErase_ne {α : Type} (l : List (String × α)) (k k' : String)
    (h : k' ≠ k) : alLookup (alErase l k) k' = alLookup l k' := by
  have h' : k ≠ k' := Ne.symm h
  induction l with
  | nil => simp [alErase, alLookup]
  | cons p rest ih =>
    obtain ⟨a, b⟩ := p
    by_cases ha : a = k
    · subst ha
      simp [alErase, alLookup, h', ih]
    · by_cases ha' : a = k'
      · simp [alErase, alLookup, ha, ha', h]
      · simp [alErase, alLookup, ha, ha', ih]

theorem alSet_self_of_alLookup {α : Type} (l : List (String × α)) (k : String) (v : α)
    (h : alLookup l k = some v) : alSet l k v = l := by
  induction l with
  | nil => simp [alLookup] at h
  | cons p rest ih =>
    obtain ⟨a, b⟩ := p
    by_cases ha : a = k
    · subst ha
      simp [alLookup] at h
      simp [alSet, h]
    · simp [alLookup, ha] at h
      simp [alSet, ha, ih h]

theorem mem_alSet {α : Type} {l : List (String × α)} {k : String} {v : α}
    {p : String × α} (hp : p ∈ alSet l k v) : p = (k, v) ∨ p ∈ l := by
  induction l with
  | nil => simpa [alSet] using hp
  | cons q rest ih =>
    obtain ⟨a, b⟩ := q
    by_cases ha : a = k
    · simp [alSet, ha] at hp
      rcases hp with hp | hp
      · exact Or.inl (by simp [hp])
      · exact Or.inr (List.mem_cons_of_mem _ hp)
    · simp [alSet, ha] at hp
      rcases hp with hp | hp
      · exact Or.inr (by simp [hp])
      · rcases ih hp with hh | hh
        · exact Or.inl hh
        · exact Or.inr (List.mem_cons_of_mem _ hh)

theorem mem_alErase {α : Type} {l : List (String × α)} {k : String}
    {p : String × α} (hp : p ∈ alErase l k) : p ∈ l := by
  induction l with
  | nil => simp [alErase] at hp
  | cons q rest ih =>
    obtain ⟨a, b⟩ := q
    by_cases ha : a = k
    · simp [alErase, ha] at hp
      exact List.mem_cons_of_mem _ (ih hp)
    · simp [alErase, ha] at hp
      rcases hp with hp | hp
      · exact List.mem_cons.mpr (Or.inl hp)
      · exact List.mem_cons_of_mem _ (ih hp)

theorem alLookup_mem {α : Type} {l : List (String × α)} {k : String} {v : α}
    (h : alLookup l k = some v) : (k, v) ∈ l := by
  induction l with
  | nil => simp [alLookup] at h
  | cons q rest ih =>
    obtain ⟨a, b⟩ := q
    by_cases ha : a = k
    · subst ha
      simp [alLookup] at h
      simp [h]
    · simp [alLookup, ha] at h
      exact List.mem_cons_of_mem _ (ih h)

/-! ## Helper lemmas: dropWhile -/

theorem mem_dropWhile_of_not {α : Type} (p : α → Bool) {l : List α} {x : α}
    (hx : x ∈ l) (hpx : ¬ p x = true) : x ∈ l.dropWhile p := by
  induction l with
  | nil => simp at hx
  | cons a rest ih =>
    by_cases hpa : p a = true
    · rw [List.dropWhile_cons_of_pos hpa]
      rcases List.mem_cons.mp hx with hx' | hx'
      · exact absurd (hx' ▸ hpa) hpx
      · exact ih hx'
    · rw [List.dropWhile_cons_of_neg hpa]
      exact hx

theorem dropWhile_dropWhile {α : Type} (p : α → Bool) (l : List α) :
    (l.dropWhile p).dropWhile p = l.dropWhile p := by
  induction l with
  | nil => simp
  | cons a rest ih =>
    by_cases hpa : p a = true
    · rw [List.dropWhile_cons_of_pos hpa, ih]
    · rw [List.dropWhile_cons_of_neg hpa, List.dropWhile_cons_of_neg hpa]

theorem lt_of_mem_dropWhile_le {c : ℚ} {l : List ℚ}
    (hs : l.Chain' (· ≤ ·)) {x : ℚ}
    (hx : x ∈ l.dropWhile (fun y => decide (y ≤ c))) : c < x := by
  induction l with
  | nil => simp at hx
  | cons a rest ih =>
    by_cases hac : a ≤ c
    · rw [List.dropWhile_cons_of_pos (by simpa using hac)] at hx
      exact ih hs.tail hx
    · rw [List.dropWhile_cons_of_neg (by simpa using hac)] at hx
      push_neg at hac
      rcases List.mem_cons.mp hx with hx' | hx'
      · exact hx' ▸ hac
      · have hpair :=
          (List.pairwise_cons.mp (List.chain'_iff_pairwise.mp hs)).1 x hx'
        exact lt_of_lt_of_le hac hpair

/-! ## Helper lemmas: operation characterizations -/

/-- The user map produced by `_cleanup_window` with expiry cutoff `c`. -/
def cleanMap (m : List (String × List ℚ)) (uid : String) (c : ℚ) :
    List (String × List ℚ) :=
  match alLookup m uid with
  | none => m
  | some dq =>
    let dq' := dq.dropWhile (fun ts => decide (ts ≤ c))
    if dq' = [] then alErase m uid else alSet m uid dq'

theorem cleanMap_of_none {m : List (String × List ℚ)} {uid : String} {c : ℚ}
    (h : alLookup m uid = none) : cleanMap m uid c = m := by
  unfold cleanMap
  rw [h]

theorem cleanMap_of_empty {m : List (String × List ℚ)} {uid : String} {c : ℚ}
    {dq : List ℚ} (h : alLookup m uid = some dq)
    (hemp : dq.dropWhile (fun ts => decide (ts ≤ c)) = []) :
    cleanMap m uid c = alErase m uid := by
  unfold cleanMap
  rw [h]
  exact if_pos hemp

theorem cleanMap_of_nonempty {m : List (String × List ℚ)} {uid : String} {c : ℚ}
    {dq : List ℚ} (h : alLookup m uid = some dq)
    (hemp : ¬ dq.dropWhile (fun ts => decide (ts ≤ c)) = []) :
    cleanMap m uid c = alSet m uid (dq.dropWhile (fun ts => decide (ts ≤ c))) := by
  unfold cleanMap
  rw [h]
  exact if_neg hemp

theorem cleanMap_idem (m : List (String × List ℚ)) (uid : String) (c : ℚ) :
    cleanMap (cleanMap m uid c) uid c = cleanMap m uid c := by
  cases h : alLookup m uid with
  | none =>
    rw [cleanMap_of_none h, cleanMap_of_none h]
  | some dq =>
    by_cases hemp : dq.dropWhile (fun ts => decide (ts ≤ c)) = []
    · rw [cleanMap_of_empty h hemp, cleanMap_of_none (alLookup_alErase_self m uid)]
    · rw [cleanMap_of_nonempty h hemp,
        cleanMap_of_nonempty (alLookup_alSet_self m uid _)
          (by rw [dropWhile_dropWhile]; exact hemp),
        dropWhile_dropWhile,
        alSet_self_of_alLookup _ _ _ (alLookup_alSet_self m uid _)]

namespace SlidingWindowRateLimiter

theorem cleanup_window_eq (s : SlidingWindowRateLimiter) (uid : String) (t : ℚ) :
    s.cleanup_window uid t
      = { s with
          user_requests := cleanMap s.user_requests uid (t - s.window_size) } := by
  unfold cleanup_window cleanMap
  cases h : alLookup s.user_requests uid with
  | none => rfl
  | some dq =>
    simp only
    split <;> rfl

theorem cleanup_window_window_size (s : SlidingWindowRateLimiter) (uid : String)
    (t : ℚ) : (s.cleanup_window uid t).window_size = s.window_size := by
  rw [cleanup_window_eq]

theorem cleanup_window_max_requests (s : SlidingWindowRateLimiter) (uid : String)
    (t : ℚ) : (s.cleanup_window uid t).max_requests = s.max_requests := by
  rw [cleanup_window_eq]

theorem cleanup_window_blocked (s : SlidingWindowRateLimiter) (uid : String)
    (t : ℚ) : (s.cleanup_window uid t).blocked_requests = s.blocked_requests := by
  rw [cleanup_window_eq]

theorem can_send_message_snd (s : SlidingWindowRateLimiter) (uid : String)
    (t : ℚ) : (s.can_send_message uid t).2 = s.cleanup_window uid t := rfl

theorem time_until_next_allowed_snd (s : SlidingWindowRateLimiter) (uid : String)
    (t : ℚ) : (s.time_until_next_allowed uid t).2 = s.cleanup_window uid t := by
  unfold time_until_next_allowed
  cases h : alLookup (s.cleanup_window uid t).user_requests uid with
  | none => simp [h]
  | some dq =>
    simp only [h]
    split <;> rfl

/-- The deque of the cleaned-up key is the source deque with its expired
front popped. -/
theorem dequeOf_cleanup_window (s : SlidingWindowRateLimiter) (uid : String)
    (t : ℚ) :
    dequeOf (s.cleanup_window uid t) uid
      = (dequeOf s uid).dropWhile (fun ts => decide (ts ≤ t - s.window_size)) := by
  rw [cleanup_window_eq]
  unfold dequeOf
  cases h : alLookup s.user_requests uid with
  | none =>
    rw [cleanMap_of_none h]
    simp [h]
  | some dq =>
    by_cases hemp :
        dq.dropWhile (fun ts => decide (ts ≤ t - s.window_size)) = []
    · rw [cleanMap_of_empty h hemp]
      simp [alLookup_alErase_self, hemp]
    · rw [cleanMap_of_nonempty h hemp]
      simp [alLookup_alSet_self]

/-- Cleanup of one key does not touch another key's entry. -/
theorem alLookup_cleanup_window_ne (s : SlidingWindowRateLimiter)
    (uid k : String) (t : ℚ) (h : k ≠ uid) :
    alLookup (s.cleanup_window uid t).user_requests k
      = alLookup s.user_requests k := by
  rw [cleanup_window_eq]
  cases hl : alLookup s.user_requests uid with
  | none => rw [cleanMap_of_none hl]
  | some dq =>
    by_cases hemp :
        dq.dropWhile (fun ts => decide (ts ≤ t - s.window_size)) = []
    · rw [cleanMap_of_empty hl hemp]
      exact alLookup_alErase_ne _ _ _ h
    · rw [cleanMap_of_nonempty hl hemp]
      exact alLookup_alSet_ne _ _ _ _ h

/-- Cleanup is idempotent. -/
theorem cleanup_window_cleanup_window (s : SlidingWindowRateLimiter)
    (uid : String) (t : ℚ) :
    (s.cleanup_window uid t).cleanup_window uid t = s.cleanup_window uid t := by
  rw [cleanup_window_eq s, cleanup_window_eq]
  simp [cleanMap_idem]

/-- `record_message` returns the same decision as `can_send_message`. -/
theorem record_message_fst (s : SlidingWindowRateLimiter) (uid : String)
    (t : ℚ) : (s.record_message uid t).1 = (s.can_send_message uid t).1 := by
  unfold record_message
  cases h : (s.can_send_message uid t).1 <;> simp [h]

/-- A successful `record_message` appends the clock reading to the cleaned-up
deque of its key. -/
theorem record_message_true_state (s : SlidingWindowRateLimiter) (uid : String)
    (t : ℚ) (h : (s.can_send_message uid t).1 = true) :
    (s.record_message uid t).2
      = { s.cleanup_window uid t with
          user_requests :=
            alSet (s.cleanup_window uid t).user_requests uid
              (dequeOf (s.cleanup_window uid t) uid ++ [t]) } := by
  unfold record_message
  simp only [h, if_pos, can_send_message_snd, dequeOf]

/-- A failed `record_message` only cleans up and bumps the blocked counter. -/
theorem record_message_false_state (s : SlidingWindowRateLimiter) (uid : String)
    (t : ℚ) (h : (s.can_send_message uid t).1 = false) :
    (s.record_message uid t).2
      = { s.cleanup_window uid t with
          blocked_requests := (s.cleanup_window uid t).blocked_requests + 1 } := by
  unfold record_message
  simp only [h, Bool.false_eq_true, if_false, can_send_message_snd]

/-- Admission after cleanup: absent key, or strictly fewer than
`max_requests` remaining timestamps. -/
theorem can_send_message_true_iff (s : SlidingWindowRateLimiter) (uid : String)
    (t : ℚ) :
    (s.can_send_message uid t).1 = true
      ↔ (alLookup (s.cleanup_window uid t).user_requests uid = none
          ∨ ((dequeOf (s.cleanup_window uid t) uid).length : ℤ) < s.max_requests) := by
  unfold can_send_message
  cases h : alLookup (s.cleanup_window uid t).user_requests uid with
  | none => simp [h]
  | some dq => simp [h, dequeOf, cleanup_window_max_requests]

end SlidingWindowRateLimiter

namespace ThrottlingRateLimiter

/-- `record_message` applies exactly the test of `can_send_message` (both
re-derive `current_time - last_message_time >= min_interval`). -/
theorem throttle_record_fst (s : ThrottlingRateLimiter) (uid : String) (t : ℚ) :
    (s.record_message uid t).1 = s.can_send_message uid t := by
  unfold record_message can_send_message
  split
  · rename_i hc
    exact (decide_eq_true hc).symm
  · rename_i hc
    exact (decide_eq_false hc).symm

end ThrottlingRateLimiter

section Sanity

example :
    (swSuccesses (SlidingWindowRateLimiter.init 10 1) "a"
      [("a", 0), ("a", 5), ("a", 11)]) = [0, 11] := by
  norm_num [swSuccesses, SlidingWindowRateLimiter.record_message,
    SlidingWindowRateLimiter.can_send_message,
    SlidingWindowRateLimiter.cleanup_window, SlidingWindowRateLimiter.init,
    alLookup, alSet, alErase, List.dropWhile]

example :
    (swRunOps (SlidingWindowRateLimiter.init 10 1)
      [.record "a" 0, .record "a" 5, .timeUntil "a" 5]).blocked_requests = 1 := by
  norm_num [swRunOps, swStep, swSuccesses, SlidingWindowRateLimiter.record_message,
    SlidingWindowRateLimiter.can_send_message,
    SlidingWindowRateLimiter.time_until_next_allowed,
    SlidingWindowRateLimiter.cleanup_window, SlidingWindowRateLimiter.init,
    alLookup, alSet, alErase, List.dropWhile]

example :
    ((ThrottlingRateLimiter.init 10).record_message "A" 100).1 = true := by
  norm_num [ThrottlingRateLimiter.record_message, ThrottlingRateLimiter.lastTime,
    ThrottlingRateLimiter.init, alLookup]

end Sanity

/-! ## Claims -/

/-- C2, counterexample: the claim asserts that constructing a sliding-window
limiter with `window_size <= 0` or `max_requests <= 0`, or an interval
limiter with `min_interval <= 0`, fails with an invalid-configuration error.
The source constructors perform no range check at all: construction at
`window_size = 0` (and `min_interval = 0`) succeeds, yields an ordinary
limiter state, and that limiter even admits a message. -/
theorem C2_counterexample_no_validation :
    SlidingWindowRateLimiter.init 0 1
      = { window_size := 0, max_requests := 1, user_requests := [],
          blocked_requests := 0 } ∧
    ThrottlingRateLimiter.init 0
      = { min_interval := 0, user_last_message_time := [] } ∧
    ((SlidingWindowRateLimiter.init 0 1).record_message "a" 0).1 = true := by
  refine ⟨rfl, rfl, ?_⟩
  norm_num [SlidingWindowRateLimiter.record_message,
    SlidingWindowRateLimiter.can_send_message,
    SlidingWindowRateLimiter.cleanup_window, SlidingWindowRateLimiter.init,
    alLookup]

/-- C2, amended: neither constructor validates its configuration. For every
configuration, including non-positive values, construction succeeds, stores
the parameters verbatim, and starts from an empty map (and, for the
sliding-window limiter, a zero blocked counter); no invalid-configuration
error exists in the code. -/
theorem C2_construction_accepts_everything : ∀ (w : ℚ) (n : ℤ) (i : ℚ),
    (SlidingWindowRateLimiter.init w n).window_size = w ∧
    (SlidingWindowRateLimiter.init w n).max_requests = n ∧
    (SlidingWindowRateLimiter.init w n).user_requests = [] ∧
    (SlidingWindowRateLimiter.init w n).blocked_requests = 0 ∧
    (ThrottlingRateLimiter.init i).min_interval = i ∧
    (ThrottlingRateLimiter.init i).user_last_message_time = [] :=
  fun _ _ _ => ⟨rfl, rfl, rfl, rfl, rfl, rfl⟩

/-- C4: interval-limiter admission is exactly
`now - last_action_time(key) >= min_interval`, with an absent key giving
`last_action_time = 0` (`lastTime` is `get(user_id, 0)`); the boundary is
inclusive (at `now = last + min_interval` the test holds), and
`record_message` applies the same test. -/
theorem C4_throttle_admission : ∀ (s : ThrottlingRateLimiter) (uid : String)
    (t : ℚ),
    (s.can_send_message uid t = true ↔ s.min_interval ≤ t - s.lastTime uid) ∧
    (s.record_message uid t).1 = s.can_send_message uid t ∧
    s.can_send_message uid (s.lastTime uid + s.min_interval) = true := by
  intro s uid t
  refine ⟨?_, ThrottlingRateLimiter.throttle_record_fst s uid t, ?_⟩
  · unfold ThrottlingRateLimiter.can_send_message
    simp [ge_iff_le]
  · unfold ThrottlingRateLimiter.can_send_message
    have harith : s.lastTime uid + s.min_interval - s.lastTime uid
        = s.min_interval := by ring
    simp [harith]

/-- C10: the interval limiter's map only grows. A successful
`record_message` overwrites the key's stored timestamp (an `alSet`, which
never deletes entries); a failed `record_message` returns the state
unchanged; any key present before an operation is present after it. In the
embedding, `can_send_message` and `time_until_next_allowed` are pure
functions of the state — faithfully to the source, which only reads
`user_last_message_time` in them — so they cannot mutate the mapping. -/
theorem C10_throttle_map_growth : ∀ (s : ThrottlingRateLimiter) (uid : String)
    (t : ℚ),
    ((s.record_message uid t).1 = true →
      (s.record_message uid t).2
        = { s with
            user_last_message_time := alSet s.user_last_message_time uid t }) ∧
    ((s.record_message uid t).1 = false → (s.record_message uid t).2 = s) ∧
    (∀ k : String, (alLookup s.user_last_message_time k).isSome = true →
      (alLookup (s.record_message uid t).2.user_last_message_time k).isSome
        = true) := by
  intro s uid t
  unfold ThrottlingRateLimiter.record_message
  split
  · rename_i hc
    refine ⟨fun _ => rfl, fun h => by simp at h, fun k hk => ?_⟩
    by_cases hku : k = uid
    · subst hku
      simp [alLookup_alSet_self]
    · simpa [alLookup_alSet_ne s.user_last_message_time uid k t hku] using hk
  · exact ⟨fun h => by simp at h, fun _ => rfl, fun k hk => hk⟩

/-- C10 witness: a concrete successful `record_message` at the instance of
the theorem. -/
theorem C10_throttle_map_growth_witness :
    (((ThrottlingRateLimiter.init 10).record_message "a" 100).1 = true) ∧
    (((ThrottlingRateLimiter.init 10).record_message "a" 100).2
      = { ThrottlingRateLimiter.init 10 with
          user_last_message_time :=
            alSet (ThrottlingRateLimiter.init 10).user_last_message_time
              "a" 100 }) :=
  ⟨by norm_num [ThrottlingRateLimiter.record_message,
      ThrottlingRateLimiter.lastTime, ThrottlingRateLimiter.init, alLookup],
   (C10_throttle_map_growth (ThrottlingRateLimiter.init 10) "a" 100).1
    (by norm_num [ThrottlingRateLimiter.record_message,
      ThrottlingRateLimiter.lastTime, ThrottlingRateLimiter.init, alLookup])⟩

/-- The admission decision of the sliding-window `can_send_message`,
written out. -/
theorem SlidingWindowRateLimiter.can_send_message_fst_eq
    (s : SlidingWindowRateLimiter) (uid : String) (t : ℚ) :
    (s.can_send_message uid t).1
      = (match alLookup (s.cleanup_window uid t).user_requests uid with
         | none => true
         | some dq =>
           decide ((dq.length : ℤ) < (s.cleanup_window uid t).max_requests)) :=
  rfl

/-- C3: `time_until_next_allowed` first performs expiry cleanup (its
resulting state is exactly the cleaned-up state), returns `0` when admission
for the key would currently succeed, otherwise returns
`max 0 (oldest_remaining_timestamp + window_size - now)`, and its result is
always nonnegative. -/
theorem C3_time_until_next_allowed_spec :
    ∀ (s : SlidingWindowRateLimiter) (uid : String) (t : ℚ),
    0 ≤ (s.time_until_next_allowed uid t).1 ∧
    (s.time_until_next_allowed uid t).2 = s.cleanup_window uid t ∧
    (s.time_until_next_allowed uid t).1
      = (if (s.can_send_message uid t).1 = true then 0
         else max 0 ((SlidingWindowRateLimiter.dequeOf
              (s.cleanup_window uid t) uid).headD 0 + s.window_size - t)) := by
  intro s uid t
  refine ⟨?_, SlidingWindowRateLimiter.time_until_next_allowed_snd s uid t, ?_⟩
  · unfold SlidingWindowRateLimiter.time_until_next_allowed
    cases h : alLookup (s.cleanup_window uid t).user_requests uid with
    | none => simp [h]
    | some dq =>
      simp only [h]
      split
      · simp
      · simp [le_max_left]
  · rw [SlidingWindowRateLimiter.can_send_message_fst_eq]
    unfold SlidingWindowRateLimiter.time_until_next_allowed
    cases h : alLookup (s.cleanup_window uid t).user_requests uid with
    | none => simp [h]
    | some dq =>
      simp only [h]
      by_cases hlen : (dq.length : ℤ) < (s.cleanup_window uid t).max_requests
      · simp [hlen]
      · simp [hlen, SlidingWindowRateLimiter.dequeOf, h,
          SlidingWindowRateLimiter.cleanup_window_window_size]

/-- C6, counterexample: the claim says any number of `can_send` calls with
no intervening `record` never changes the outcome or the key's timestamp
sequence. On the code, `can_send_message` performs expiry cleanup: with
`window_size = 10, max_requests = 1` and a message recorded at time 0, a
`can_send` at time 5 returns `false`, but a later `can_send` at time 11
(still with no intervening `record`) returns `true`, and it removes the
expired timestamp, changing the key's sequence contents from `[0]` to `[]`. -/
theorem C6_counterexample_can_send_not_neutral :
    ((((SlidingWindowRateLimiter.init 10 1).record_message "a" 0).2.can_send_message
        "a" 5).1 = false) ∧
    (((((SlidingWindowRateLimiter.init 10 1).record_message "a" 0).2.can_send_message
        "a" 5).2.can_send_message "a" 11).1 = true) ∧
    SlidingWindowRateLimiter.dequeOf
        (((((SlidingWindowRateLimiter.init 10 1).record_message "a"
            0).2.can_send_message "a" 5).2.can_send_message "a" 11).2) "a"
      ≠ SlidingWindowRateLimiter.dequeOf
          ((((SlidingWindowRateLimiter.init 10 1).record_message "a"
              0).2.can_send_message "a" 5).2) "a" := by
  norm_num [SlidingWindowRateLimiter.record_message,
    SlidingWindowRateLimiter.can_send_message,
    SlidingWindowRateLimiter.cleanup_window, SlidingWindowRateLimiter.init,
    SlidingWindowRateLimiter.dequeOf, alLookup, alSet, alErase,
    List.dropWhile]

/-- C6, amended: at a fixed current time, repeated `can_send_message` calls
are idempotent — a second call at the same time returns the same outcome and
leaves the state exactly as the first call left it — and `can_send_message`
never changes the blocked-request counter. (A single call may still drop
expired timestamps, and calls at later times may flip the outcome; the
interval limiter's `can_send_message` is a pure read in the embedding, so it
never changes any state.) -/
theorem C6_can_send_idempotent_fixed_time :
    ∀ (s : SlidingWindowRateLimiter) (uid : String) (t : ℚ),
    (s.can_send_message uid t).2.can_send_message uid t
      = s.can_send_message uid t ∧
    (s.can_send_message uid t).2.blocked_requests = s.blocked_requests := by
  intro s uid t
  constructor
  · have h1 : ((s.can_send_message uid t).2.can_send_message uid t).1
        = (s.can_send_message uid t).1 := by
      rw [SlidingWindowRateLimiter.can_send_message_fst_eq,
        SlidingWindowRateLimiter.can_send_message_fst_eq s uid t,
        SlidingWindowRateLimiter.can_send_message_snd,
        SlidingWindowRateLimiter.cleanup_window_cleanup_window]
    have h2 : ((s.can_send_message uid t).2.can_send_message uid t).2
        = (s.can_send_message uid t).2 := by
      rw [SlidingWindowRateLimiter.can_send_message_snd,
        SlidingWindowRateLimiter.can_send_message_snd,
        SlidingWindowRateLimiter.cleanup_window_cleanup_window]
    exact Prod.ext h1 h2
  · rw [SlidingWindowRateLimiter.can_send_message_snd]
    exact SlidingWindowRateLimiter.cleanup_window_blocked s uid t

/-- C8: sliding-window expiry is half-open on the expiry side. For a key
whose deque is sorted ascending (true of every reachable state), every
timestamp surviving `_cleanup_window` at time `t` is strictly greater than
`t - window_size`; in particular a timestamp exactly equal to
`t - window_size` is removed (the comparison is `<=`, not `<`). -/
theorem C8_expiry_boundary_inclusive (s : SlidingWindowRateLimiter)
    (uid : String) (t : ℚ)
    (hsort : (SlidingWindowRateLimiter.dequeOf s uid).Chain' (· ≤ ·)) :
    (∀ x ∈ SlidingWindowRateLimiter.dequeOf (s.cleanup_window uid t) uid,
        t - s.window_size < x) ∧
    t - s.window_size
      ∉ SlidingWindowRateLimiter.dequeOf (s.cleanup_window uid t) uid := by
  have hmain :
      ∀ x ∈ SlidingWindowRateLimiter.dequeOf (s.cleanup_window uid t) uid,
        t - s.window_size < x := by
    intro x hx
    rw [SlidingWindowRateLimiter.dequeOf_cleanup_window] at hx
    exact lt_of_mem_dropWhile_le hsort hx
  exact ⟨hmain, fun hmem => lt_irrefl _ (hmain _ hmem)⟩

/-- C8 witness: a deque `[0, 5]` for key `"a"` with `window_size = 10`,
cleaned up at time 10: the timestamp `0 = 10 - 10` is removed. -/
theorem C8_expiry_boundary_inclusive_witness :
    ((SlidingWindowRateLimiter.dequeOf
        (⟨10, 1, [("a", [0, 5])], 0⟩ : SlidingWindowRateLimiter) "a").Chain'
        (· ≤ ·)) ∧
    ((∀ x ∈ SlidingWindowRateLimiter.dequeOf
        ((⟨10, 1, [("a", [0, 5])], 0⟩ :
          SlidingWindowRateLimiter).cleanup_window "a" 10) "a",
        (10 : ℚ) - (10 : ℚ) < x) ∧
      (10 : ℚ) - (10 : ℚ)
        ∉ SlidingWindowRateLimiter.dequeOf
            ((⟨10, 1, [("a", [0, 5])], 0⟩ :
              SlidingWindowRateLimiter).cleanup_window "a" 10) "a") :=
  ⟨by norm_num [SlidingWindowRateLimiter.dequeOf, alLookup],
   C8_expiry_boundary_inclusive _ "a" 10
    (by norm_num [SlidingWindowRateLimiter.dequeOf, alLookup])⟩

/-- Blocked-counter effect of one operation: `+1` exactly on a rejected
`record_message`, unchanged otherwise. -/
theorem swStep_blocked (s : SlidingWindowRateLimiter) (op : SWOp) :
    (swStep s op).blocked_requests
      = s.blocked_requests
        + (match op with
           | .record uid t => if (s.record_message uid t).1 = true then 0 else 1
           | _ => 0) := by
  cases op with
  | record uid t =>
    cases h : (s.can_send_message uid t).1
    · simp only [swStep]
      rw [SlidingWindowRateLimiter.record_message_false_state s uid t h]
      simp [SlidingWindowRateLimiter.record_message_fst, h,
        SlidingWindowRateLimiter.cleanup_window_blocked]
    · simp only [swStep]
      rw [SlidingWindowRateLimiter.record_message_true_state s uid t h]
      simp [SlidingWindowRateLimiter.record_message_fst, h,
        SlidingWindowRateLimiter.cleanup_window_blocked]
  | canSend uid t =>
    simp [swStep, SlidingWindowRateLimiter.can_send_message_snd,
      SlidingWindowRateLimiter.cleanup_window_blocked]
  | timeUntil uid t =>
    simp [swStep, SlidingWindowRateLimiter.time_until_next_allowed_snd,
      SlidingWindowRateLimiter.cleanup_window_blocked]

/-- Running a scripted sequence adds exactly the number of rejected
`record_message` calls to the blocked counter. -/
theorem swRunOps_blocked (ops : List SWOp) :
    ∀ s : SlidingWindowRateLimiter,
    (swRunOps s ops).blocked_requests
      = s.blocked_requests + swRejectedCount s ops := by
  induction ops with
  | nil => intro s; simp [swRunOps, swRejectedCount]
  | cons op rest ih =>
    intro s
    simp only [swRunOps, swRejectedCount]
    rw [ih (swStep s op), swStep_blocked]
    cases op <;> omega

/-- C5: starting from a fresh sliding-window limiter, after any scripted
sequence of operations containing exactly K rejected `record_message` calls
the blocked counter equals K; the counter never decreases across any
sequence of operations (it is a field of the state, so only constructing a
new limiter resets it to 0). -/
theorem C5_blocked_counter_accuracy :
    ∀ (w : ℚ) (n : ℤ) (ops : List SWOp),
    (swRunOps (SlidingWindowRateLimiter.init w n) ops).blocked_requests
      = swRejectedCount (SlidingWindowRateLimiter.init w n) ops ∧
    ∀ (s : SlidingWindowRateLimiter) (tail : List SWOp),
      s.blocked_requests ≤ (swRunOps s tail).blocked_requests := by
  intro w n ops
  constructor
  · rw [swRunOps_blocked]
    simp [SlidingWindowRateLimiter.init]
  · intro s tail
    rw [swRunOps_blocked]
    exact Nat.le_add_right _ _

/-- The per-entry state invariant of the sliding-window limiter at a time
bound `t`: every stored deque is non-empty, sorted ascending, and contains
only timestamps `<= t`. -/
def SWInv (s : SlidingWindowRateLimiter) (t : ℚ) : Prop :=
  ∀ p ∈ s.user_requests,
    p.2 ≠ [] ∧ p.2.Chain' (· ≤ ·) ∧ ∀ x ∈ p.2, x ≤ t

theorem SWInv.mono {s : SlidingWindowRateLimiter} {t t' : ℚ}
    (h : SWInv s t) (ht : t ≤ t') : SWInv s t' :=
  fun p hp =>
    ⟨(h p hp).1, (h p hp).2.1, fun x hx => le_trans ((h p hp).2.2 x hx) ht⟩

theorem SWInv_cleanMap {m : List (String × List ℚ)} {tb : ℚ}
    (h : ∀ p ∈ m, p.2 ≠ [] ∧ p.2.Chain' (· ≤ ·) ∧ ∀ x ∈ p.2, x ≤ tb)
    (uid : String) (c : ℚ) :
    ∀ p ∈ cleanMap m uid c,
      p.2 ≠ [] ∧ p.2.Chain' (· ≤ ·) ∧ ∀ x ∈ p.2, x ≤ tb := by
  intro p hp
  cases hl : alLookup m uid with
  | none =>
    rw [cleanMap_of_none hl] at hp
    exact h p hp
  | some dq =>
    by_cases hemp : dq.dropWhile (fun ts => decide (ts ≤ c)) = []
    · rw [cleanMap_of_empty hl hemp] at hp
      exact h p (mem_alErase hp)
    · rw [cleanMap_of_nonempty hl hemp] at hp
      rcases mem_alSet hp with hp' | hp'
      · obtain ⟨h1, h2, h3⟩ := h (uid, dq) (alLookup_mem hl)
        subst hp'
        refine ⟨hemp, ?_, ?_⟩
        · exact List.chain'_iff_pairwise.mpr
            (List.Pairwise.sublist (List.dropWhile_sublist _)
              (List.chain'_iff_pairwise.mp h2))
        · intro x hx
          exact h3 x ((List.dropWhile_sublist _).subset hx)
      · exact h p hp'

theorem SWInv_cleanup_window {s : SlidingWindowRateLimiter} {tb : ℚ}
    (h : SWInv s tb) (uid : String) (t : ℚ) :
    SWInv (s.cleanup_window uid t) tb := by
  rw [SlidingWindowRateLimiter.cleanup_window_eq]
  intro p hp
  exact SWInv_cleanMap h uid (t - s.window_size) p hp

/-- The cleaned deque of a key, under the invariant: sorted and bounded. -/
theorem dequeOf_props {s : SlidingWindowRateLimiter} {tb : ℚ}
    (h : SWInv s tb) (uid : String) :
    (SlidingWindowRateLimiter.dequeOf s uid).Chain' (· ≤ ·) ∧
    ∀ x ∈ SlidingWindowRateLimiter.dequeOf s uid, x ≤ tb := by
  unfold SlidingWindowRateLimiter.dequeOf
  cases hl : alLookup s.user_requests uid with
  | none => simp
  | some dq =>
    obtain ⟨_, h2, h3⟩ := h (uid, dq) (alLookup_mem hl)
    simpa using ⟨h2, h3⟩

theorem SWInv_record {s : SlidingWindowRateLimiter} {tb t' : ℚ}
    (h : SWInv s tb) (htb : tb ≤ t') (uid : String) :
    SWInv (s.record_message uid t').2 t' := by
  have hclean : SWInv (s.cleanup_window uid t') tb :=
    SWInv_cleanup_window h uid t'
  cases hcs : (s.can_send_message uid t').1
  · rw [SlidingWindowRateLimiter.record_message_false_state s uid t' hcs]
    intro p hp
    exact (hclean.mono htb) p hp
  · rw [SlidingWindowRateLimiter.record_message_true_state s uid t' hcs]
    have hdq := dequeOf_props hclean uid
    intro p hp
    rcases mem_alSet hp with hp' | hp'
    · subst hp'
      refine ⟨by simp, ?_, ?_⟩
      · refine List.chain'_iff_pairwise.mpr
          (List.pairwise_append.mpr ⟨List.chain'_iff_pairwise.mp hdq.1, ?_, ?_⟩)
        · simp
        · intro x hx y hy
          rw [List.mem_singleton.mp hy]
          exact le_trans (hdq.2 x hx) htb
      · intro x hx
        rcases List.mem_append.mp hx with hx' | hx'
        · exact le_trans (hdq.2 x hx') htb
        · rw [List.mem_singleton.mp hx']
    · exact (hclean.mono htb) p hp'

/-- C9: every public operation preserves the state invariant (non-empty,
ascending, time-bounded per-key deques — a key whose deque becomes empty is
removed, so no empty entry is ever stored), and immediately after
`_cleanup_window` at time `t'` all remaining timestamps of the cleaned key
lie within `[t' - window_size, t']`, given non-decreasing call times. -/
theorem C9_operations_preserve_invariant (s : SlidingWindowRateLimiter)
    (uid : String) (t t' : ℚ) (hInv : SWInv s t) (ht : t ≤ t') :
    SWInv ((s.record_message uid t').2) t' ∧
    SWInv ((s.can_send_message uid t').2) t' ∧
    SWInv ((s.time_until_next_allowed uid t').2) t' ∧
    ∀ x ∈ SlidingWindowRateLimiter.dequeOf (s.cleanup_window uid t') uid,
      t' - s.window_size ≤ x ∧ x ≤ t' := by
  refine ⟨SWInv_record hInv ht uid, ?_, ?_, ?_⟩
  · rw [SlidingWindowRateLimiter.can_send_message_snd]
    exact (SWInv_cleanup_window hInv uid t').mono ht
  · rw [SlidingWindowRateLimiter.time_until_next_allowed_snd]
    exact (SWInv_cleanup_window hInv uid t').mono ht
  · intro x hx
    have hsort := (dequeOf_props hInv uid).1
    constructor
    · rw [SlidingWindowRateLimiter.dequeOf_cleanup_window] at hx
      exact le_of_lt (lt_of_mem_dropWhile_le hsort hx)
    · have hmem : x ∈ SlidingWindowRateLimiter.dequeOf s uid := by
        rw [SlidingWindowRateLimiter.dequeOf_cleanup_window] at hx
        exact (List.dropWhile_sublist _).subset hx
      exact le_trans ((dequeOf_props hInv uid).2 x hmem) ht

/-- C9 witness: a concrete invariant-satisfying state, stepped at a later
time. -/
theorem C9_operations_preserve_invariant_witness :
    SWInv (⟨10, 1, [("a", [0, 3])], 0⟩ : SlidingWindowRateLimiter) 3 ∧
    (3 : ℚ) ≤ 5 ∧
    (SWInv (((⟨10, 1, [("a", [0, 3])], 0⟩ :
        SlidingWindowRateLimiter).record_message "a" 5).2) 5 ∧
     SWInv (((⟨10, 1, [("a", [0, 3])], 0⟩ :
        SlidingWindowRateLimiter).can_send_message "a" 5).2) 5 ∧
     SWInv (((⟨10, 1, [("a", [0, 3])], 0⟩ :
        SlidingWindowRateLimiter).time_until_next_allowed "a" 5).2) 5 ∧
     ∀ x ∈ SlidingWindowRateLimiter.dequeOf
        ((⟨10, 1, [("a", [0, 3])], 0⟩ :
          SlidingWindowRateLimiter).cleanup_window "a" 5) "a",
        (5 : ℚ) - (⟨10, 1, [("a", [0, 3])], 0⟩ :
          SlidingWindowRateLimiter).window_size ≤ x ∧ x ≤ 5) := by
  have hinv : SWInv (⟨10, 1, [("a", [0, 3])], 0⟩ : SlidingWindowRateLimiter) 3 := by
    intro p hp
    simp only [List.mem_singleton] at hp
    subst hp
    refine ⟨by simp, by norm_num [List.chain'_cons], ?_⟩
    intro x hx
    simp only [List.mem_cons, List.not_mem_nil, or_false] at hx
    rcases hx with hx | hx <;> subst hx <;> norm_num
  exact ⟨hinv, by norm_num,
    C9_operations_preserve_invariant _ "a" 3 5 hinv (by norm_num)⟩

/-- A key with a non-empty deque is present in the map, holding exactly
that deque. -/
theorem alLookup_of_dequeOf_ne {s : SlidingWindowRateLimiter} {uid : String}
    (h : SlidingWindowRateLimiter.dequeOf s uid ≠ []) :
    alLookup s.user_requests uid
      = some (SlidingWindowRateLimiter.dequeOf s uid) := by
  unfold SlidingWindowRateLimiter.dequeOf at h ⊢
  cases hl : alLookup s.user_requests uid with
  | none => rw [hl] at h; simp at h
  | some dq => simp [hl]

/-- Before the oldest remaining timestamp ages out, `time_until_next_allowed`
on a full key returns exactly `oldest + window_size - now` (strictly
positive) and leaves the state untouched (the cleanup drops nothing). -/
theorem time_until_full_value (s' : SlidingWindowRateLimiter) (uid : String)
    (t1 : ℚ) (hne : SlidingWindowRateLimiter.dequeOf s' uid ≠ [])
    (hlen : ¬ ((SlidingWindowRateLimiter.dequeOf s' uid).length : ℤ)
              < s'.max_requests)
    (ht1 : t1 < (SlidingWindowRateLimiter.dequeOf s' uid).headD 0
              + s'.window_size) :
    (s'.time_until_next_allowed uid t1).1
      = (SlidingWindowRateLimiter.dequeOf s' uid).headD 0 + s'.window_size - t1
    ∧ (s'.time_until_next_allowed uid t1).2 = s' := by
  obtain ⟨hd, tl, hdq⟩ := List.exists_cons_of_ne_nil hne
  have hlk : alLookup s'.user_requests uid
      = some (SlidingWindowRateLimiter.dequeOf s' uid) := alLookup_of_dequeOf_ne hne
  have hhd : (SlidingWindowRateLimiter.dequeOf s' uid).headD 0 = hd := by
    rw [hdq]; rfl
  have hnotle : ¬ (decide (hd ≤ t1 - s'.window_size) = true) := by
    simp only [decide_eq_true_eq]
    intro hle
    rw [hhd] at ht1
    linarith
  have hdrop : (SlidingWindowRateLimiter.dequeOf s' uid).dropWhile
      (fun ts => decide (ts ≤ t1 - s'.window_size))
      = SlidingWindowRateLimiter.dequeOf s' uid := by
    rw [hdq]
    exact List.dropWhile_cons_of_neg (by simpa using hnotle)
  have hclean : s'.cleanup_window uid t1 = s' := by
    rw [SlidingWindowRateLimiter.cleanup_window_eq,
      cleanMap_of_nonempty hlk (by rw [hdrop]; rw [hdq]; simp), hdrop,
      alSet_self_of_alLookup _ _ _ hlk]
  have hlk' : alLookup (s'.cleanup_window uid t1).user_requests uid
      = some (SlidingWindowRateLimiter.dequeOf s' uid) := by rw [hclean]; exact hlk
  constructor
  · unfold SlidingWindowRateLimiter.time_until_next_allowed
    simp only [hclean, hlk]
    rw [if_neg hlen]
    have hpos : 0 ≤ (SlidingWindowRateLimiter.dequeOf s' uid).headD 0
        + s'.window_size - t1 := by linarith
    show (0 : ℚ) ⊔ ((SlidingWindowRateLimiter.dequeOf s' uid).headD 0
        + s'.window_size - t1)
      = (SlidingWindowRateLimiter.dequeOf s' uid).headD 0 + s'.window_size - t1
    exact max_eq_right hpos
  · rw [SlidingWindowRateLimiter.time_until_next_allowed_snd, hclean]

/-- Once the oldest remaining timestamp of an exactly-full key has aged out,
`time_until_next_allowed` returns `0`. -/
theorem time_until_zero_after (s' : SlidingWindowRateLimiter) (uid : String)
    (t2 : ℚ) (hne : SlidingWindowRateLimiter.dequeOf s' uid ≠ [])
    (hlen : ((SlidingWindowRateLimiter.dequeOf s' uid).length : ℤ)
              = s'.max_requests)
    (ht2 : (SlidingWindowRateLimiter.dequeOf s' uid).headD 0 + s'.window_size
              ≤ t2) :
    (s'.time_until_next_allowed uid t2).1 = 0 := by
  obtain ⟨hd, tl, hdq⟩ := List.exists_cons_of_ne_nil hne
  have hhd : (SlidingWindowRateLimiter.dequeOf s' uid).headD 0 = hd := by
    rw [hdq]; rfl
  have hle : decide (hd ≤ t2 - s'.window_size) = true := by
    simp only [decide_eq_true_eq]
    rw [hhd] at ht2
    linarith
  have hdrop : (SlidingWindowRateLimiter.dequeOf s' uid).dropWhile
      (fun ts => decide (ts ≤ t2 - s'.window_size))
      = tl.dropWhile (fun ts => decide (ts ≤ t2 - s'.window_size)) := by
    rw [hdq]
    exact List.dropWhile_cons_of_pos hle
  have hshort : ((tl.dropWhile
      (fun ts => decide (ts ≤ t2 - s'.window_size))).length : ℤ)
      < s'.max_requests := by
    have h1 : (tl.dropWhile (fun ts => decide (ts ≤ t2 - s'.window_size))).length
        ≤ tl.length := List.Sublist.length_le (List.dropWhile_sublist _)
    have h2 : (SlidingWindowRateLimiter.dequeOf s' uid).length = tl.length + 1 := by
      rw [hdq]; simp
    rw [h2] at hlen
    omega
  have hdq' := SlidingWindowRateLimiter.dequeOf_cleanup_window s' uid t2
  rw [hdrop] at hdq'
  unfold SlidingWindowRateLimiter.time_until_next_allowed
  cases hl2 : alLookup (s'.cleanup_window uid t2).user_requests uid with
  | none => simp [hl2]
  | some dq2 =>
    have hdq2 : dq2 = tl.dropWhile (fun ts => decide (ts ≤ t2 - s'.window_size)) := by
      have : SlidingWindowRateLimiter.dequeOf (s'.cleanup_window uid t2) uid = dq2 := by
        unfold SlidingWindowRateLimiter.dequeOf
        rw [hl2]; rfl
      rw [this] at hdq'
      exact hdq'
    simp only [hl2]
    rw [if_pos]
    rw [hdq2, SlidingWindowRateLimiter.cleanup_window_max_requests]
    exact hshort

/-- A failed interval-limiter `record_message` leaves the state unchanged. -/
theorem ThrottlingRateLimiter.throttle_record_false_state
    (s : ThrottlingRateLimiter) (uid : String) (t : ℚ)
    (h : (s.record_message uid t).1 = false) :
    (s.record_message uid t).2 = s := by
  unfold ThrottlingRateLimiter.record_message at h ⊢
  split at h
  · simp at h
  · split
    · rename_i hc hc'
      exact absurd hc' hc
    · rfl

theorem SlidingWindowRateLimiter.record_message_window_size
    (s : SlidingWindowRateLimiter) (uid : String) (t : ℚ) :
    (s.record_message uid t).2.window_size = s.window_size := by
  cases h : (s.can_send_message uid t).1
  · rw [SlidingWindowRateLimiter.record_message_false_state s uid t h]
    exact SlidingWindowRateLimiter.cleanup_window_window_size s uid t
  · rw [SlidingWindowRateLimiter.record_message_true_state s uid t h]
    exact SlidingWindowRateLimiter.cleanup_window_window_size s uid t

theorem SlidingWindowRateLimiter.record_message_max_requests
    (s : SlidingWindowRateLimiter) (uid : String) (t : ℚ) :
    (s.record_message uid t).2.max_requests = s.max_requests := by
  cases h : (s.can_send_message uid t).1
  · rw [SlidingWindowRateLimiter.record_message_false_state s uid t h]
    exact SlidingWindowRateLimiter.cleanup_window_max_requests s uid t
  · rw [SlidingWindowRateLimiter.record_message_true_state s uid t h]
    exact SlidingWindowRateLimiter.cleanup_window_max_requests s uid t

/-- C7, counterexample: the claim places the recovery boundary at
`t + window_size` where `t` is the time of the failed `record`. With
`window_size = 10, max_requests = 1`, a message recorded at time 0 and a
failed `record` at `t = 5`, the wait is already exactly 0 at time 10 — the
oldest timestamp (0) has aged out — although `10 < t + window_size = 15`,
so `time_until_next_allowed` does not decrease toward `t + window_size` and
does not first reach 0 there. -/
theorem C7_counterexample_recovery_boundary :
    (((SlidingWindowRateLimiter.init 10 1).record_message "a" 0).1 = true) ∧
    ((((SlidingWindowRateLimiter.init 10 1).record_message "a"
        0).2.record_message "a" 5).1 = false) ∧
    (((((SlidingWindowRateLimiter.init 10 1).record_message "a"
        0).2.record_message "a" 5).2.time_until_next_allowed "a" 10).1 = 0) ∧
    ((10 : ℚ) < 5 + 10) := by
  refine ⟨?_, ?_, ?_, by norm_num⟩ <;>
    norm_num [SlidingWindowRateLimiter.record_message,
      SlidingWindowRateLimiter.can_send_message,
      SlidingWindowRateLimiter.time_until_next_allowed,
      SlidingWindowRateLimiter.cleanup_window, SlidingWindowRateLimiter.init,
      alLookup, alSet, alErase, List.dropWhile]

/-- C7, amended: if `record(key)` fails at time `t` (leaving the key's
window holding exactly `max_requests` timestamps, the reachable failure
state), then with no further records `time_until_next_allowed(key)` equals
`oldest + window_size - now` — strictly positive, strictly decreasing, and
leaving the state unchanged — for all query times up to
`oldest + window_size`, and equals exactly 0 from `oldest + window_size`
on, where `oldest` is the oldest remaining timestamp (not `t` itself). For
the interval limiter the boundary is `last_accepted + min_interval`
likewise. -/
theorem C7_monotonic_recovery (s : SlidingWindowRateLimiter) (uid : String)
    (t : ℚ) (hfail : (s.record_message uid t).1 = false)
    (hpos : 0 < s.max_requests)
    (hlen : ((SlidingWindowRateLimiter.dequeOf (s.record_message uid t).2
        uid).length : ℤ) = s.max_requests) :
    (∀ t1, t ≤ t1 →
      t1 < (SlidingWindowRateLimiter.dequeOf (s.record_message uid t).2
          uid).headD 0 + s.window_size →
      ((s.record_message uid t).2.time_until_next_allowed uid t1).1
        = (SlidingWindowRateLimiter.dequeOf (s.record_message uid t).2
            uid).headD 0 + s.window_size - t1
      ∧ 0 < ((s.record_message uid t).2.time_until_next_allowed uid t1).1
      ∧ ((s.record_message uid t).2.time_until_next_allowed uid t1).2
        = (s.record_message uid t).2) ∧
    (∀ t1 t2, t ≤ t1 → t1 < t2 →
      t2 < (SlidingWindowRateLimiter.dequeOf (s.record_message uid t).2
          uid).headD 0 + s.window_size →
      ((s.record_message uid t).2.time_until_next_allowed uid t2).1
        < ((s.record_message uid t).2.time_until_next_allowed uid t1).1) ∧
    (∀ t2, (SlidingWindowRateLimiter.dequeOf (s.record_message uid t).2
        uid).headD 0 + s.window_size ≤ t2 →
      ((s.record_message uid t).2.time_until_next_allowed uid t2).1 = 0) ∧
    (∀ (st : ThrottlingRateLimiter) (u2 : String) (t0 : ℚ),
      (st.record_message u2 t0).1 = false →
      (∀ t1, t0 ≤ t1 → t1 < st.lastTime u2 + st.min_interval →
        (st.record_message u2 t0).2.time_until_next_allowed u2 t1
          = st.lastTime u2 + st.min_interval - t1
        ∧ 0 < (st.record_message u2 t0).2.time_until_next_allowed u2 t1) ∧
      (∀ t1 t2, t0 ≤ t1 → t1 < t2 → t2 < st.lastTime u2 + st.min_interval →
        (st.record_message u2 t0).2.time_until_next_allowed u2 t2
          < (st.record_message u2 t0).2.time_until_next_allowed u2 t1) ∧
      (∀ t2, st.lastTime u2 + st.min_interval ≤ t2 →
        (st.record_message u2 t0).2.time_until_next_allowed u2 t2 = 0)) := by
  have hw := SlidingWindowRateLimiter.record_message_window_size s uid t
  have hm := SlidingWindowRateLimiter.record_message_max_requests s uid t
  have hlen' : ((SlidingWindowRateLimiter.dequeOf (s.record_message uid t).2
      uid).length : ℤ) = (s.record_message uid t).2.max_requests := by
    rw [hm]; exact hlen
  have hne : SlidingWindowRateLimiter.dequeOf (s.record_message uid t).2 uid
      ≠ [] := by
    intro hnil
    rw [hnil] at hlen
    simp at hlen
    omega
  have hnotlt : ¬ ((SlidingWindowRateLimiter.dequeOf (s.record_message uid t).2
      uid).length : ℤ) < (s.record_message uid t).2.max_requests := by
    rw [hlen']
    exact lt_irrefl _
  have hfull : ∀ t1, t1 < (SlidingWindowRateLimiter.dequeOf
      (s.record_message uid t).2 uid).headD 0 + s.window_size →
      ((s.record_message uid t).2.time_until_next_allowed uid t1).1
        = (SlidingWindowRateLimiter.dequeOf (s.record_message uid t).2
            uid).headD 0 + s.window_size - t1
      ∧ ((s.record_message uid t).2.time_until_next_allowed uid t1).2
        = (s.record_message uid t).2 := by
    intro t1 h2
    have h2' : t1 < (SlidingWindowRateLimiter.dequeOf (s.record_message uid t).2
        uid).headD 0 + (s.record_message uid t).2.window_size := by
      rw [hw]; exact h2
    obtain ⟨hv, hs⟩ := time_until_full_value (s.record_message uid t).2 uid t1
      hne hnotlt h2'
    rw [hw] at hv
    exact ⟨hv, hs⟩
  refine ⟨?_, ?_, ?_, ?_⟩
  · intro t1 h1 h2
    obtain ⟨hv, hs⟩ := hfull t1 h2
    exact ⟨hv, by rw [hv]; linarith, hs⟩
  · intro t1 t2 h1 h12 h2
    have ht1 : t1 < (SlidingWindowRateLimiter.dequeOf (s.record_message uid t).2
        uid).headD 0 + s.window_size := lt_trans h12 h2
    rw [(hfull t1 ht1).1, (hfull t2 h2).1]
    linarith
  · intro t2 h2
    have h2' : (SlidingWindowRateLimiter.dequeOf (s.record_message uid t).2
        uid).headD 0 + (s.record_message uid t).2.window_size ≤ t2 := by
      rw [hw]; exact h2
    exact time_until_zero_after (s.record_message uid t).2 uid t2 hne hlen' h2'
  · intro st u2 t0 hf0
    rw [ThrottlingRateLimiter.throttle_record_false_state st u2 t0 hf0]
    have hval : ∀ t1, t1 < st.lastTime u2 + st.min_interval →
        st.time_until_next_allowed u2 t1
          = st.lastTime u2 + st.min_interval - t1 := by
      intro t1 h2
      unfold ThrottlingRateLimiter.time_until_next_allowed
      have harith : st.min_interval - (t1 - st.lastTime u2)
          = st.lastTime u2 + st.min_interval - t1 := by ring
      rw [harith]
      exact max_eq_right (by linarith)
    refine ⟨?_, ?_, ?_⟩
    · intro t1 h1 h2
      rw [hval t1 h2]
      exact ⟨rfl, by linarith⟩
    · intro t1 t2 h1 h12 h2
      rw [hval t1 (lt_trans h12 h2), hval t2 h2]
      linarith
    · intro t2 h2
      unfold ThrottlingRateLimiter.time_until_next_allowed
      exact max_eq_left (by linarith)

/-- C7 witness: `window_size = 10, max_requests = 1`, record at 0, failed
record at 5; querying at time 6 gives wait `0 + 10 - 6 = 4 > 0` with the
state untouched. -/
theorem C7_monotonic_recovery_witness :
    (((((SlidingWindowRateLimiter.init 10 1).record_message "a"
        0).2).record_message "a" 5).1 = false) ∧
    ((0 : ℤ) < (((SlidingWindowRateLimiter.init 10 1).record_message "a"
        0).2).max_requests) ∧
    (((SlidingWindowRateLimiter.dequeOf
        ((((SlidingWindowRateLimiter.init 10 1).record_message "a"
          0).2).record_message "a" 5).2 "a").length : ℤ)
      = (((SlidingWindowRateLimiter.init 10 1).record_message "a"
          0).2).max_requests) ∧
    (((((((SlidingWindowRateLimiter.init 10 1).record_message "a"
        0).2).record_message "a" 5).2).time_until_next_allowed "a" 6).1
      = (SlidingWindowRateLimiter.dequeOf
          ((((SlidingWindowRateLimiter.init 10 1).record_message "a"
            0).2).record_message "a" 5).2 "a").headD 0
        + (((SlidingWindowRateLimiter.init 10 1).record_message "a"
            0).2).window_size - 6
     ∧ 0 < ((((((SlidingWindowRateLimiter.init 10 1).record_message "a"
          0).2).record_message "a" 5).2).time_until_next_allowed "a" 6).1
     ∧ ((((((SlidingWindowRateLimiter.init 10 1).record_message "a"
          0).2).record_message "a" 5).2).time_until_next_allowed "a" 6).2
        = ((((SlidingWindowRateLimiter.init 10 1).record_message "a"
            0).2).record_message "a" 5).2) := by
  have hfail : ((((SlidingWindowRateLimiter.init 10 1).record_message "a"
      0).2).record_message "a" 5).1 = false := by
    norm_num [SlidingWindowRateLimiter.record_message,
      SlidingWindowRateLimiter.can_send_message,
      SlidingWindowRateLimiter.cleanup_window, SlidingWindowRateLimiter.init,
      alLookup, alSet, alErase, List.dropWhile]
  have hpos : (0 : ℤ) < (((SlidingWindowRateLimiter.init 10 1).record_message
      "a" 0).2).max_requests := by
    norm_num [SlidingWindowRateLimiter.record_message,
      SlidingWindowRateLimiter.can_send_message,
      SlidingWindowRateLimiter.cleanup_window, SlidingWindowRateLimiter.init,
      alLookup, alSet, alErase, List.dropWhile]
  have hlen : ((SlidingWindowRateLimiter.dequeOf
      ((((SlidingWindowRateLimiter.init 10 1).record_message "a"
        0).2).record_message "a" 5).2 "a").length : ℤ)
      = (((SlidingWindowRateLimiter.init 10 1).record_message "a"
          0).2).max_requests := by
    norm_num [SlidingWindowRateLimiter.record_message,
      SlidingWindowRateLimiter.can_send_message,
      SlidingWindowRateLimiter.cleanup_window, SlidingWindowRateLimiter.init,
      SlidingWindowRateLimiter.dequeOf, alLookup, alSet, alErase,
      List.dropWhile]
  exact ⟨hfail, hpos, hlen,
    (C7_monotonic_recovery _ "a" 5 hfail hpos hlen).1 6 (by norm_num)
      (by norm_num [SlidingWindowRateLimiter.record_message,
        SlidingWindowRateLimiter.can_send_message,
        SlidingWindowRateLimiter.cleanup_window, SlidingWindowRateLimiter.init,
        SlidingWindowRateLimiter.dequeOf, alLookup, alSet, alErase,
        List.dropWhile])⟩

/-- `record_message` for one key does not touch another key's entry. -/
theorem alLookup_record_message_ne (s : SlidingWindowRateLimiter)
    (uid : String) (t : ℚ) (k : String) (h : k ≠ uid) :
    alLookup (s.record_message uid t).2.user_requests k
      = alLookup s.user_requests k := by
  cases hc : (s.can_send_message uid t).1
  · rw [SlidingWindowRateLimiter.record_message_false_state s uid t hc]
    exact SlidingWindowRateLimiter.alLookup_cleanup_window_ne s uid k t h
  · rw [SlidingWindowRateLimiter.record_message_true_state s uid t hc]
    show alLookup (alSet (s.cleanup_window uid t).user_requests uid
        (SlidingWindowRateLimiter.dequeOf (s.cleanup_window uid t) uid ++ [t]))
        k = alLookup s.user_requests k
    rw [alLookup_alSet_ne _ _ _ _ h]
    exact SlidingWindowRateLimiter.alLookup_cleanup_window_ne s uid k t h

theorem dequeOf_record_message_ne (s : SlidingWindowRateLimiter)
    (uid : String) (t : ℚ) (k : String) (h : k ≠ uid) :
    SlidingWindowRateLimiter.dequeOf (s.record_message uid t).2 k
      = SlidingWindowRateLimiter.dequeOf s k := by
  unfold SlidingWindowRateLimiter.dequeOf
  rw [alLookup_record_message_ne s uid t k h]

theorem dequeOf_record_message_true (s : SlidingWindowRateLimiter)
    (uid : String) (t : ℚ) (h : (s.can_send_message uid t).1 = true) :
    SlidingWindowRateLimiter.dequeOf (s.record_message uid t).2 uid
      = SlidingWindowRateLimiter.dequeOf (s.cleanup_window uid t) uid ++ [t] := by
  rw [SlidingWindowRateLimiter.record_message_true_state s uid t h]
  unfold SlidingWindowRateLimiter.dequeOf
  simp [alLookup_alSet_self]

theorem dequeOf_record_message_false (s : SlidingWindowRateLimiter)
    (uid : String) (t : ℚ) (h : (s.can_send_message uid t).1 = false)
    (k : String) :
    SlidingWindowRateLimiter.dequeOf (s.record_message uid t).2 k
      = SlidingWindowRateLimiter.dequeOf (s.cleanup_window uid t) k := by
  rw [SlidingWindowRateLimiter.record_message_false_state s uid t h]
  rfl

/-- The induction invariant for the window-bound theorem, for a fixed key
`k`: the configuration is `(w, n)`, the successes so far for `k` decompose
as already-expired timestamps (each `<= tL - w`, where `tL` bounds all clock
readings so far) followed by the key's current deque, and all successes so
far happened at times `<= tL`. -/
def C1Inv (w : ℚ) (n : ℤ) (k : String) (s : SlidingWindowRateLimiter)
    (succ : List ℚ) (tL : ℚ) : Prop :=
  s.window_size = w ∧ s.max_requests = n ∧
  (∃ dropped, succ = dropped ++ SlidingWindowRateLimiter.dequeOf s k ∧
      ∀ x ∈ dropped, x ≤ tL - w) ∧
  (∀ x ∈ succ, x ≤ tL)

/-- Extending the expired-prefix decomposition across a cleanup at a later
time `t`. -/
theorem C1_decomp_extend {w : ℚ} {s : SlidingWindowRateLimiter} {k : String}
    {succ : List ℚ} {tL t : ℚ} (hw : s.window_size = w)
    (hdec : ∃ dropped,
        succ = dropped ++ SlidingWindowRateLimiter.dequeOf s k ∧
        ∀ x ∈ dropped, x ≤ tL - w)
    (ht : tL ≤ t) :
    ∃ dropped',
      succ = dropped' ++ SlidingWindowRateLimiter.dequeOf (s.cleanup_window k t) k
      ∧ ∀ x ∈ dropped', x ≤ t - w := by
  obtain ⟨dropped, hdq, hbd⟩ := hdec
  refine ⟨dropped ++ (SlidingWindowRateLimiter.dequeOf s k).takeWhile
      (fun ts => decide (ts ≤ t - s.window_size)), ?_, ?_⟩
  · rw [SlidingWindowRateLimiter.dequeOf_cleanup_window, List.append_assoc,
      List.takeWhile_append_dropWhile]
    exact hdq
  · intro x hx
    rcases List.mem_append.mp hx with hx' | hx'
    · have := hbd x hx'
      linarith
    · have := List.mem_takeWhile_imp hx'
      simp only [decide_eq_true_eq] at this
      rw [hw] at this
      exact this

theorem C1Inv_record_ne {w : ℚ} {n : ℤ} {k : String}
    {s : SlidingWindowRateLimiter} {succ : List ℚ} {tL : ℚ}
    (hInv : C1Inv w n k s succ tL) {uid : String} {t : ℚ}
    (huid : k ≠ uid) (ht : tL ≤ t) :
    C1Inv w n k (s.record_message uid t).2 succ t := by
  obtain ⟨hw, hm, ⟨dropped, hdq, hbd⟩, hsb⟩ := hInv
  refine ⟨?_, ?_, ⟨dropped, ?_, ?_⟩, ?_⟩
  · rw [SlidingWindowRateLimiter.record_message_window_size]
    exact hw
  · rw [SlidingWindowRateLimiter.record_message_max_requests]
    exact hm
  · rw [dequeOf_record_message_ne s uid t k huid]
    exact hdq
  · intro x hx
    have := hbd x hx
    linarith
  · intro x hx
    exact le_trans (hsb x hx) ht

theorem C1Inv_record_fail {w : ℚ} {n : ℤ} {k : String}
    {s : SlidingWindowRateLimiter} {succ : List ℚ} {tL t : ℚ}
    (hInv : C1Inv w n k s succ tL) (ht : tL ≤ t)
    (hc : (s.can_send_message k t).1 = false) :
    C1Inv w n k (s.record_message k t).2 succ t := by
  obtain ⟨hw, hm, hdec, hsb⟩ := hInv
  obtain ⟨dropped', hdq', hbd'⟩ := C1_decomp_extend hw hdec ht
  refine ⟨?_, ?_, ⟨dropped', ?_, hbd'⟩, ?_⟩
  · rw [SlidingWindowRateLimiter.record_message_window_size]
    exact hw
  · rw [SlidingWindowRateLimiter.record_message_max_requests]
    exact hm
  · rw [dequeOf_record_message_false s k t hc k]
    exact hdq'
  · intro x hx
    exact le_trans (hsb x hx) ht

theorem C1Inv_record_success {w : ℚ} {n : ℤ} {k : String}
    {s : SlidingWindowRateLimiter} {succ : List ℚ} {tL t : ℚ}
    (hInv : C1Inv w n k s succ tL) (ht : tL ≤ t)
    (hc : (s.can_send_message k t).1 = true) :
    C1Inv w n k (s.record_message k t).2 (succ ++ [t]) t := by
  obtain ⟨hw, hm, hdec, hsb⟩ := hInv
  obtain ⟨dropped', hdq', hbd'⟩ := C1_decomp_extend hw hdec ht
  refine ⟨?_, ?_, ⟨dropped', ?_, hbd'⟩, ?_⟩
  · rw [SlidingWindowRateLimiter.record_message_window_size]
    exact hw
  · rw [SlidingWindowRateLimiter.record_message_max_requests]
    exact hm
  · rw [dequeOf_record_message_true s k t hc, ← List.append_assoc, ← hdq']
  · intro x hx
    rcases List.mem_append.mp hx with hx' | hx'
    · exact le_trans (hsb x hx') ht
    · rw [List.mem_singleton.mp hx']

/-- Counting step: when a `record` for key `k` succeeds at time `t`, the
windowed success count stays within `n` — the admission check saw fewer
than `n` live timestamps, and every success in the window `(T - w, T]`
containing `t` is among them. -/
theorem C1_count_step {w : ℚ} {n : ℤ} {k : String}
    {s : SlidingWindowRateLimiter} {succ : List ℚ} {tL t : ℚ} (hn : 0 < n)
    (hInv : C1Inv w n k s succ tL) (ht : tL ≤ t)
    (hc : (s.can_send_message k t).1 = true) (T : ℚ)
    (hP : (countWindow w T succ : ℤ) ≤ n) :
    (countWindow w T (succ ++ [t]) : ℤ) ≤ n := by
  obtain ⟨hw, hm, hdec, hsb⟩ := hInv
  unfold countWindow at hP ⊢
  rw [List.countP_append]
  by_cases hpt : (T - w < t ∧ t ≤ T)
  · have h1 : List.countP (fun x => decide (T - w < x ∧ x ≤ T)) [t] = 1 := by
      simp [List.countP_cons, hpt]
    rw [h1]
    obtain ⟨dropped', hdq', hbd'⟩ := C1_decomp_extend hw ⟨hdec.choose, hdec.choose_spec⟩ ht
    have hzero : List.countP (fun x => decide (T - w < x ∧ x ≤ T)) dropped' = 0 := by
      rw [List.countP_eq_zero]
      intro a ha
      have h2 := hbd' a ha
      simp only [decide_eq_true_eq, not_and]
      intro h3 h4
      have h5 : a ≤ T - w := by linarith [hpt.2]
      linarith
    have hsucc_eq : List.countP (fun x => decide (T - w < x ∧ x ≤ T)) succ
        = List.countP (fun x => decide (T - w < x ∧ x ≤ T))
            (SlidingWindowRateLimiter.dequeOf (s.cleanup_window k t) k) := by
      rw [hdq', List.countP_append, hzero, Nat.zero_add]
    have hbound : (List.countP (fun x => decide (T - w < x ∧ x ≤ T))
        (SlidingWindowRateLimiter.dequeOf (s.cleanup_window k t) k) : ℤ)
        ≤ n - 1 := by
      rcases (SlidingWindowRateLimiter.can_send_message_true_iff s k t).mp hc
        with hno | hlt
      · have hnil : SlidingWindowRateLimiter.dequeOf (s.cleanup_window k t) k
            = [] := by
          unfold SlidingWindowRateLimiter.dequeOf
          rw [hno]
          rfl
        rw [hnil]
        simp only [List.countP_nil, Nat.cast_zero]
        omega
      · have hle : List.countP (fun x => decide (T - w < x ∧ x ≤ T))
            (SlidingWindowRateLimiter.dequeOf (s.cleanup_window k t) k)
            ≤ (SlidingWindowRateLimiter.dequeOf (s.cleanup_window k t) k).length :=
          List.countP_le_length _
        rw [hm] at hlt
        have hle' : (List.countP (fun x => decide (T - w < x ∧ x ≤ T))
            (SlidingWindowRateLimiter.dequeOf (s.cleanup_window k t) k) : ℤ)
            ≤ ((SlidingWindowRateLimiter.dequeOf (s.cleanup_window k t) k).length : ℤ) :=
          Int.ofNat_le.mpr hle
        omega
    rw [hsucc_eq]
    push_cast
    push_cast at hbound
    omega
  · have h0 : List.countP (fun x => decide (T - w < x ∧ x ≤ T)) [t] = 0 := by
      simp [List.countP_cons, hpt]
    rw [h0]
    simpa using hP

/-- Main induction for the window bound: from any state satisfying the
invariant, running the remaining record-only trace at non-decreasing times
keeps every trailing window's success count within `n`. -/
theorem C1_aux (w : ℚ) (n : ℤ) (hn : 0 < n) (k : String) :
    ∀ (trace : List (String × ℚ)) (s : SlidingWindowRateLimiter)
      (succ : List ℚ) (tL : ℚ),
      C1Inv w n k s succ tL →
      (∀ T, (countWindow w T succ : ℤ) ≤ n) →
      ((tL :: trace.map Prod.snd).Chain' (· ≤ ·)) →
      ∀ T, (countWindow w T (succ ++ swSuccesses s k trace) : ℤ) ≤ n := by
  intro trace
  induction trace with
  | nil =>
    intro s succ tL hInv hP hch T
    simpa [swSuccesses] using hP T
  | cons p rest ih =>
    obtain ⟨uid, t⟩ := p
    intro s succ tL hInv hP hch T
    rw [List.map_cons] at hch
    have htL : tL ≤ t := (List.chain'_cons.mp hch).1
    have hch' : (t :: rest.map Prod.snd).Chain' (· ≤ ·) :=
      (List.chain'_cons.mp hch).2
    by_cases huid : uid = k
    · subst huid
      cases hc : (s.can_send_message uid t).1
      · have hr : (s.record_message uid t).1 = false := by
          rw [SlidingWindowRateLimiter.record_message_fst]
          exact hc
        have hss : swSuccesses s uid ((uid, t) :: rest)
            = swSuccesses (s.record_message uid t).2 uid rest := by
          simp only [swSuccesses]
          simp [hr]
        rw [hss]
        exact ih (s.record_message uid t).2 succ t
          (C1Inv_record_fail hInv htL hc) hP hch' T
      · have hr : (s.record_message uid t).1 = true := by
          rw [SlidingWindowRateLimiter.record_message_fst]
          exact hc
        have hss : swSuccesses s uid ((uid, t) :: rest)
            = t :: swSuccesses (s.record_message uid t).2 uid rest := by
          simp only [swSuccesses]
          simp [hr]
        rw [hss, show succ ++ t :: swSuccesses (s.record_message uid t).2 uid rest
            = (succ ++ [t]) ++ swSuccesses (s.record_message uid t).2 uid rest by
          simp]
        exact ih (s.record_message uid t).2 (succ ++ [t]) t
          (C1Inv_record_success hInv htL hc)
          (fun T' => C1_count_step hn hInv htL hc T' (hP T')) hch' T
    · have hss : swSuccesses s k ((uid, t) :: rest)
          = swSuccesses (s.record_message uid t).2 k rest := by
        simp only [swSuccesses]
        simp [huid]
      rw [hss]
      exact ih (s.record_message uid t).2 succ t
        (C1Inv_record_ne hInv (Ne.symm huid) htL) hP hch' T

/-- C1: starting from a fresh sliding-window limiter with `window_size = w`
and `max_requests = n > 0`, for every record-only trace at non-decreasing
clock readings, every key `k` and every window end `T`, at most `n`
`record_message` calls for `k` succeed in the trailing half-open window
`(T - w, T]` (window semantics per the code's `<=` expiry: a timestamp
exactly `w` old is already expired). -/
theorem C1_record_window_bound (w : ℚ) (n : ℤ) (hn : 0 < n) (k : String)
    (trace : List (String × ℚ))
    (hmono : (trace.map Prod.snd).Chain' (· ≤ ·)) (T : ℚ) :
    ((countWindow w T
        (swSuccesses (SlidingWindowRateLimiter.init w n) k trace)) : ℤ) ≤ n := by
  have hP : ∀ T', ((countWindow w T' ([] : List ℚ)) : ℤ) ≤ n := by
    intro T'
    simp only [countWindow, List.countP_nil, Nat.cast_zero]
    omega
  cases trace with
  | nil =>
    simpa [swSuccesses, countWindow] using hn.le
  | cons p rest =>
    obtain ⟨uid, t⟩ := p
    have hInv : C1Inv w n k (SlidingWindowRateLimiter.init w n) [] t := by
      refine ⟨rfl, rfl, ⟨[], ?_, by simp⟩, by simp⟩
      simp [SlidingWindowRateLimiter.dequeOf, SlidingWindowRateLimiter.init,
        alLookup]
    have hch : (t :: ((uid, t) :: rest).map Prod.snd).Chain' (· ≤ ·) := by
      rw [List.map_cons]
      rw [List.map_cons] at hmono
      exact List.chain'_cons.mpr ⟨le_refl t, hmono⟩
    have hmain := C1_aux w n hn k ((uid, t) :: rest)
      (SlidingWindowRateLimiter.init w n) [] t hInv hP hch T
    simpa using hmain

/-- C1 witness: `w = 10, n = 1`, records for `"a"` at times 0, 5, 11
(non-decreasing); the successes are at 0 and 11, and the window `(1, 11]`
contains exactly one of them. -/
theorem C1_record_window_bound_witness :
    ((0 : ℤ) < 1) ∧
    (([("a", (0 : ℚ)), ("a", 5), ("a", 11)].map Prod.snd).Chain' (· ≤ ·)) ∧
    ((countWindow 10 11
        (swSuccesses (SlidingWindowRateLimiter.init 10 1) "a"
          [("a", 0), ("a", 5), ("a", 11)]) : ℤ) ≤ 1) :=
  ⟨by norm_num, by norm_num [List.chain'_cons],
   C1_record_window_bound 10 1 (by norm_num) "a" _
    (by norm_num [List.chain'_cons]) 11⟩
